import Mathlib

/-!
Shallow embedding of the validation/approval workflow engine of the
ministre-backend repository (src/src/routes/validations.ts), together with
the data model from src/src/types.ts (ValidationRequest, Project, User,
Notification rows) and the Supabase store modelled as in-memory tables.

Conventions of the embedding:
* Supabase tables are Lean lists of row structures; `insert` appends,
  `update ... eq(id)` maps over the list guarded by the id only (exactly as
  the source conditions its writes), `select ... single()` is `List.find?`.
* JavaScript's dynamically typed JSON values are modelled by `JPrim`
  (primitives) and `JObj` (objects as association lists); the engine only
  ever stores and reads object-shaped metadata.  The stored `metadata` text
  column is modelled by `MetaCol`: `null`, a string that `JSON.parse`
  accepts (carried already parsed, since no code path observes the raw text
  of a parseable column), or a string it throws on (carried raw).
* Timestamps (`new Date().toISOString()`) are opaque, totally ordered
  instants, modelled as `Nat` and passed to each handler as `now`.
* `createId()` (cuid2) is modelled by an explicit fresh-id parameter for
  validation rows, and by a deterministic derived id for notification rows
  (never read back by the engine).
* Fallible store / notification calls receive their outcome from a `Faults`
  record: a `true` flag makes the corresponding call return an error (the
  call then has no effect, and the source logs and either aborts or
  continues, exactly as each handler does).
* An uncaught JavaScript exception inside a handler (the unguarded
  `JSON.parse` in the approve handler) is the distinguished outcome
  `Res.thrown`.
-/

/-- UserRoleEnum from src/src/types.ts. -/
inductive Role where
  | superAdmin | adminDepartment | minister | primature | presidency | agent
deriving DecidableEq, Repr

/-- ValidationRequestTypeEnum from src/src/types.ts. -/
inductive VType where
  | projectApproval | budgetIncrease | unblockRequest | statusChange
deriving DecidableEq, Repr

/-- ValidationRequestStatusEnum from src/src/types.ts. -/
inductive VStatus where
  | pending | approved | rejected
deriving DecidableEq, Repr

/-- JavaScript primitive JSON values. -/
inductive JPrim where
  | jnull
  | jbool (b : Bool)
  | jnum (n : Int)
  | jstr (s : String)
deriving DecidableEq, Repr

/-- A JSON object: association list from keys to primitive values
(the engine's metadata payloads are flat objects). -/
def JObj : Type := List (String × JPrim)

instance : DecidableEq JObj := by unfold JObj; infer_instance

instance : Repr JObj := by unfold JObj; infer_instance

/-- Property access `o.k` on a parsed JSON object: `none` plays the part of
JavaScript `undefined`. -/
def jGet (o : JObj) (k : String) : Option JPrim :=
  (o.find? (fun p => p.1 = k)).map (fun p => p.2)

/-- JavaScript truthiness of a primitive value (used by
`if (metadata.newStatus)` in the approve handler). -/
def truthy : JPrim → Bool
  | .jnull => false
  | .jbool b => b
  | .jnum n => n ≠ 0
  | .jstr s => s ≠ ""

/-- The stored `metadata` text column of a validation_requests row:
SQL NULL, a string accepted by `JSON.parse` (carried parsed), or a string
`JSON.parse` throws on (carried raw). -/
inductive MetaCol where
  | null
  | valid (o : JObj)
  | invalid (raw : String)
deriving DecidableEq, Repr

/-- The `metadata` field of the API response assembled by
`formatValidationRequest`: JS null, a parsed object, or the raw string when
parsing failed. -/
inductive MetaOut where
  | mnull
  | mobj (o : JObj)
  | mraw (s : String)
deriving DecidableEq, Repr

/-- A users row (fields the engine reads). -/
structure UserRow where
  id : String
  name : String
  email : String
  role : Role
  is_active : Bool
  department_id : Option String
deriving DecidableEq, Repr

/-- A departments row (fields the validations select joins). -/
structure DeptRow where
  id : String
  name : String
  code : String
deriving DecidableEq, Repr

/-- A projects row (fields the engine touches).  `status` and `budget` are
dynamically typed at the JS/PostgREST boundary, hence `JPrim`. -/
structure ProjectRow where
  id : String
  name : String
  status : JPrim
  budget : JPrim
  department_id : String
  updated_at : Nat
deriving DecidableEq, Repr

/-- A validation_requests row. -/
structure VRow where
  id : String
  vtype : VType
  status : VStatus
  project_id : String
  requester_id : String
  approver_id : Option String
  comment : String
  response_comment : Option String
  metadata : MetaCol
  created_at : Nat
  updated_at : Nat
  responded_at : Option Nat
deriving DecidableEq, Repr

/-- A notifications row as inserted by notifyApprovers / notifyRequester. -/
structure NotifRow where
  id : String
  ntype : String
  title : String
  message : String
  user_id : String
  link : String
  is_read : Bool
  created_at : Nat
deriving DecidableEq, Repr

/-- The Supabase store. -/
structure DB where
  validations : List VRow
  projects : List ProjectRow
  departments : List DeptRow
  users : List UserRow
  notifications : List NotifRow
deriving DecidableEq, Repr

/-- `select ... eq("id", i) ... single()` on validation_requests. -/
def findV (db : DB) (i : String) : Option VRow :=
  db.validations.find? (fun r => r.id = i)

/-- `select ... eq("id", i) ... single()` on projects (also the
`projects (...)` join of the validations selects). -/
def findProj (db : DB) (i : String) : Option ProjectRow :=
  db.projects.find? (fun r => r.id = i)

/-- The `departments (...)` join. -/
def findDept (db : DB) (i : String) : Option DeptRow :=
  db.departments.find? (fun r => r.id = i)

/-- The `users!...` joins (requester / approver relations). -/
def findUser (db : DB) (i : String) : Option UserRow :=
  db.users.find? (fun r => r.id = i)

/-- `update(fields).eq("id", i)` on validation_requests: the write is
guarded by the id alone, exactly as in the source. -/
def updV (db : DB) (i : String) (g : VRow → VRow) : DB :=
  { db with validations := db.validations.map (fun r => if r.id = i then g r else r) }

/-- `update(fields).eq("id", i)` on projects. -/
def updProj (db : DB) (i : String) (g : ProjectRow → ProjectRow) : DB :=
  { db with projects := db.projects.map (fun r => if r.id = i then g r else r) }

-- APPROVER_ROLES from validations.ts line 17.
def APPROVER_ROLES : List Role := [.minister, .primature, .presidency, .superAdmin]

/-- getApproverRolesForType: APPROVAL_HIERARCHY lookup with APPROVER_ROLES
fallback; every current type maps to the same four roles. -/
def getApproverRolesForType : VType → List Role
  | .projectApproval => [.minister, .primature, .presidency, .superAdmin]
  | .budgetIncrease => [.minister, .primature, .presidency, .superAdmin]
  | .statusChange => [.minister, .primature, .presidency, .superAdmin]
  | .unblockRequest => [.minister, .primature, .presidency, .superAdmin]

/-- The department sub-object of the formatted project relation. -/
structure DeptOut where
  id : String
  name : String
  code : String
deriving DecidableEq, Repr

/-- The project relation of the formatted response. -/
structure ProjOut where
  id : String
  name : String
  status : JPrim
  department : DeptOut
deriving DecidableEq, Repr

/-- The requester / approver relation of the formatted response. -/
structure UserOut where
  id : String
  name : String
  email : String
  role : Role
deriving DecidableEq, Repr

/-- The API response shape assembled by formatValidationRequest
(ValidationRequestWithRelations). -/
structure FormattedV where
  id : String
  vtype : VType
  status : VStatus
  projectId : String
  requesterId : String
  approverId : Option String
  comment : String
  responseComment : Option String
  metadata : MetaOut
  createdAt : Nat
  updatedAt : Nat
  respondedAt : Option Nat
  project : ProjOut
  requester : UserOut
  approver : Option UserOut
deriving DecidableEq, Repr

/-- formatValidationRequest (validations.ts lines 34-82).  The joined
relations of the select are resolved against the store; every `?? default`
of the source is reproduced.  The metadata branch is the
`try JSON.parse catch return raw` of lines 35-42. -/
def formatValidationRequest (db : DB) (v : VRow) : FormattedV :=
  let metadata : MetaOut :=
    match v.metadata with
    | .null => .mnull
    | .valid o => .mobj o
    | .invalid raw => .mraw raw
  let proj := findProj db v.project_id
  let dept := proj.bind (fun p => findDept db p.department_id)
  let requester := findUser db v.requester_id
  let approver := v.approver_id.bind (fun a => findUser db a)
  { id := v.id
    vtype := v.vtype
    status := v.status
    projectId := v.project_id
    requesterId := v.requester_id
    approverId := v.approver_id
    comment := v.comment
    responseComment := v.response_comment
    metadata := metadata
    createdAt := v.created_at
    updatedAt := v.updated_at
    respondedAt := v.responded_at
    project :=
      { id := (proj.map (·.id)).getD ""
        name := (proj.map (·.name)).getD ""
        status := (proj.map (·.status)).getD (.jstr "DRAFT")
        department :=
          { id := (dept.map (·.id)).getD ""
            name := (dept.map (·.name)).getD ""
            code := (dept.map (·.code)).getD "" } }
    requester :=
      { id := (requester.map (·.id)).getD ""
        name := (requester.map (·.name)).getD ""
        email := (requester.map (·.email)).getD ""
        role := (requester.map (·.role)).getD .adminDepartment }
    approver := approver.map (fun u => { id := u.id, name := u.name, email := u.email, role := u.role }) }

/-- Insert into a list kept ordered by created_at descending. -/
def insDesc (r : VRow) : List VRow → List VRow
  | [] => [r]
  | x :: xs => if x.created_at ≤ r.created_at then r :: x :: xs else x :: insDesc r xs

/-- `order("created_at", ascending: false)`: newest-first ordering of a
result set. -/
def sortDesc : List VRow → List VRow
  | [] => []
  | x :: xs => insDesc x (sortDesc xs)

/-- Outcomes injected for each fallible store / notification call: `true`
means the call returns an error and has no effect. -/
structure Faults where
  projFetch : Bool
  vInsert : Bool
  vQuery : Bool
  vFetch : Bool
  projUpdate : Bool
  vUpdate : Bool
  approversFetch : Bool
  notifInsert : Bool
  requesterNotif : Bool
deriving DecidableEq, Repr

def noFaults : Faults :=
  { projFetch := false, vInsert := false, vQuery := false, vFetch := false,
    projUpdate := false, vUpdate := false, approversFetch := false,
    notifInsert := false, requesterNotif := false }

/-- The error codes of the JSON error responses of validations.ts. -/
inductive ErrCode where
  | unauthorized
  | forbidden
  | notFound
  | alreadyProcessed
  | databaseError
deriving DecidableEq, Repr

/-- A handler outcome: JSON success payload, JSON error with a code, or an
uncaught JavaScript exception. -/
inductive Res (α : Type) where
  | ok (a : α)
  | err (e : ErrCode)
  | thrown
deriving DecidableEq, Repr

/-- cuid2 generation for notification rows, modelled as a deterministic
fresh-id function; the engine never reads a notification id back. -/
def notifId (vid recipient : String) : String := vid ++ ":" ++ recipient

/-- notifyApprovers (validations.ts lines 85-127): find active users whose
role is in getApproverRolesForType, insert one notification each; on either
failure, log and return (the store is left unchanged). -/
def notifyApprovers (db : DB) (f : Faults) (v : VRow) (projectName requesterName : String)
    (now : Nat) : DB :=
  if f.approversFetch then db
  else
    let approvers := db.users.filter (fun u => u.role ∈ getApproverRolesForType v.vtype ∧ u.is_active)
    if approvers ≠ [] then
      if f.notifInsert then db
      else
        { db with notifications := db.notifications ++ approvers.map (fun u =>
            { id := notifId v.id u.id
              ntype := "VALIDATION_REQUEST"
              title := "Nouvelle demande de validation"
              message := requesterName ++ " a soumis une demande de type pour le projet " ++ projectName
              user_id := u.id
              link := "/validations/" ++ v.id
              is_read := false
              created_at := now }) }
    else db

/-- notifyRequester (validations.ts lines 130-152): insert one notification
for the requester; on failure, log and return. -/
def notifyRequester (db : DB) (f : Faults) (v : VRow) (projectName approverName : String)
    (approved : Bool) (now : Nat) : DB :=
  if f.requesterNotif then db
  else
    { db with notifications := db.notifications ++ [
        { id := notifId v.id v.requester_id
          ntype := "VALIDATION_RESPONSE"
          title := if approved then "Demande approuvee" else "Demande rejetee"
          message := approverName ++ (if approved then " a approuve" else " a rejete")
            ++ " votre demande pour le projet " ++ projectName
          user_id := v.requester_id
          link := "/validations/" ++ v.id
          is_read := false
          created_at := now }] }

/-- ValidationRequestFiltersSchema: the query filters of GET /validations. -/
structure VFilters where
  status : Option VStatus
  vtype : Option VType
  projectId : Option String
  requesterId : Option String
deriving DecidableEq, Repr

/-- The conjunction of `eq` filters a row must pass in the GET /validations
query, including the forced `requester_id = user.id` for ADMIN_DEPARTMENT
(validations.ts lines 179-187). -/
def listPred (filters : VFilters) (u : UserRow) (r : VRow) : Bool :=
  (match filters.status with | some s => r.status = s | none => true)
  && (match filters.vtype with | some t => r.vtype = t | none => true)
  && (match filters.projectId with | some p => r.project_id = p | none => true)
  && (match filters.requesterId with | some q => r.requester_id = q | none => true)
  && (if u.role = .adminDepartment then r.requester_id = u.id else true)

/-- GET /api/validations (validations.ts lines 155-199). -/
def listGet (db : DB) (f : Faults) (actor : Option UserRow) (filters : VFilters) :
    Res (List FormattedV) :=
  match actor with
  | none => .err .unauthorized
  | some u =>
    if f.vQuery then .err .databaseError
    else .ok ((sortDesc (db.validations.filter (listPred filters u))).map
        (formatValidationRequest db))

/-- GET /api/validations/pending (validations.ts lines 202-238). -/
def pendingGet (db : DB) (f : Faults) (actor : Option UserRow) : Res (List FormattedV) :=
  match actor with
  | none => .err .unauthorized
  | some u =>
    if u.role ∈ APPROVER_ROLES then
      if f.vQuery then .err .databaseError
      else .ok ((sortDesc (db.validations.filter (fun r => r.status = .pending))).map
          (formatValidationRequest db))
    else .err .forbidden

/-- CreateValidationRequestSchema: the validated body of POST /validations. -/
structure CreateBody where
  vtype : VType
  projectId : String
  comment : String
  metadata : Option JObj
deriving DecidableEq, Repr

/-- POST /api/validations (validations.ts lines 279-346).  `newId` is the
cuid2 generated for the row; the stored metadata column is
`JSON.stringify(body.metadata)` when present (an object is always truthy),
else SQL NULL. -/
def submitPost (db : DB) (f : Faults) (actor : Option UserRow) (body : CreateBody)
    (newId : String) (now : Nat) : Res FormattedV × DB :=
  match actor with
  | none => (.err .unauthorized, db)
  | some u =>
    if f.projFetch then (.err .notFound, db)
    else
      match findProj db body.projectId with
      | none => (.err .notFound, db)
      | some project =>
        if u.role = .adminDepartment ∧ u.department_id ≠ some project.department_id then
          (.err .forbidden, db)
        else
          let newRow : VRow :=
            { id := newId
              vtype := body.vtype
              status := .pending
              project_id := body.projectId
              requester_id := u.id
              approver_id := none
              comment := body.comment
              response_comment := none
              metadata := match body.metadata with | some o => .valid o | none => .null
              created_at := now
              updated_at := now
              responded_at := none }
          if f.vInsert then (.err .databaseError, db)
          else
            let db1 := { db with validations := db.validations ++ [newRow] }
            (.ok (formatValidationRequest db1 newRow),
             notifyApprovers db1 f newRow project.name u.name now)

/-- The update object of the decision write (validations.ts lines 438-444
and 506-512): status, approver_id, response_comment, responded_at,
updated_at. -/
def decideUpd (st : VStatus) (uid : String) (rc : Option String) (now : Nat)
    (r : VRow) : VRow :=
  { r with status := st, approver_id := some uid, response_comment := rc,
           responded_at := some now, updated_at := now }

/-- The row returned by the approve handler's fetch, together with the
`projects (id, name, status)` join resolved at fetch time. -/
structure FetchedV where
  row : VRow
  proj : Option ProjectRow
deriving DecidableEq, Repr

/-- Result of the read/guard phase of a decide handler. -/
inductive CheckRes where
  | fail (e : ErrCode)
  | go (fv : FetchedV)
deriving DecidableEq, Repr

/-- The read/guard phase of PUT /:id/approve (validations.ts lines
357-380): role gate, fetch with project join, NOT_FOUND, and the
ALREADY_PROCESSED guard — a plain read, no write. -/
def approveCheck (db : DB) (f : Faults) (u : UserRow) (reqId : String) : CheckRes :=
  if u.role ∈ APPROVER_ROLES then
    if f.vFetch then .fail .notFound
    else
      match findV db reqId with
      | none => .fail .notFound
      | some v =>
        if v.status ≠ .pending then .fail .alreadyProcessed
        else .go { row := v, proj := findProj db v.project_id }
  else .fail .forbidden

/-- The type-dispatched side effect on the Project (validations.ts lines
385-433).  `none` is the uncaught `JSON.parse` exception; a failing project
update is logged and swallowed (the store is left unchanged). -/
def applyApproveEffect (db : DB) (f : Faults) (fv : FetchedV) (now : Nat) : Option DB :=
  match fv.row.vtype with
  | .projectApproval =>
    if (fv.proj.map (·.status)) = some (.jstr "PENDING_VALIDATION") then
      some (if f.projUpdate then db
            else updProj db fv.row.project_id
              (fun p => { p with status := .jstr "IN_PROGRESS", updated_at := now }))
    else some db
  | .budgetIncrease =>
    match fv.row.metadata with
    | .null => some db
    | .invalid _ => none
    | .valid o =>
      match jGet o "newBudget" with
      | some p =>
        some (if f.projUpdate then db
              else updProj db fv.row.project_id
                (fun pr => { pr with budget := p, updated_at := now }))
      | none => some db
  | .statusChange =>
    match fv.row.metadata with
    | .null => some db
    | .invalid _ => none
    | .valid o =>
      match jGet o "newStatus" with
      | some p =>
        if truthy p then
          some (if f.projUpdate then db
                else updProj db fv.row.project_id
                  (fun pr => { pr with status := p, updated_at := now }))
        else some db
      | none => some db
  | .unblockRequest =>
    if (fv.proj.map (·.status)) = some (.jstr "BLOCKED") then
      some (if f.projUpdate then db
            else updProj db fv.row.project_id
              (fun p => { p with status := .jstr "IN_PROGRESS", updated_at := now }))
    else some db

/-- The write phase of PUT /:id/approve (validations.ts lines 382-467):
side effect first, then the request-row update guarded by id only, then the
best-effort requester notification. -/
def approveCommit (db : DB) (f : Faults) (u : UserRow) (fv : FetchedV)
    (respComment : Option String) (now : Nat) : Res FormattedV × DB :=
  match applyApproveEffect db f fv now with
  | none => (.thrown, db)
  | some db1 =>
    if f.vUpdate then (.err .databaseError, db1)
    else
      let db2 := updV db1 fv.row.id (decideUpd .approved u.id respComment now)
      match findV db2 fv.row.id with
      | none => (.err .databaseError, db2)
      | some uv =>
        (.ok (formatValidationRequest db2 uv),
         notifyRequester db2 f uv (((findProj db2 uv.project_id).map (·.name)).getD "")
           u.name true now)

/-- PUT /api/validations/:id/approve: the sequential handler is the guard
phase followed by the write phase against the same store snapshot. -/
def approvePut (db : DB) (f : Faults) (actor : Option UserRow) (reqId : String)
    (respComment : Option String) (now : Nat) : Res FormattedV × DB :=
  match actor with
  | none => (.err .unauthorized, db)
  | some u =>
    match approveCheck db f u reqId with
    | .fail e => (.err e, db)
    | .go fv => approveCommit db f u fv respComment now

/-- The read/guard phase of PUT /:id/reject (validations.ts lines 478-499);
the reject fetch selects the bare row, no project join. -/
def rejectCheck (db : DB) (f : Faults) (u : UserRow) (reqId : String) : CheckRes :=
  if u.role ∈ APPROVER_ROLES then
    if f.vFetch then .fail .notFound
    else
      match findV db reqId with
      | none => .fail .notFound
      | some v =>
        if v.status ≠ .pending then .fail .alreadyProcessed
        else .go { row := v, proj := none }
  else .fail .forbidden

/-- The write phase of PUT /:id/reject (validations.ts lines 501-535): no
Project mutation of any kind, only the request-row update and the
best-effort requester notification. -/
def rejectCommit (db : DB) (f : Faults) (u : UserRow) (fv : FetchedV)
    (respComment : Option String) (now : Nat) : Res FormattedV × DB :=
  if f.vUpdate then (.err .databaseError, db)
  else
    let db2 := updV db fv.row.id (decideUpd .rejected u.id respComment now)
    match findV db2 fv.row.id with
    | none => (.err .databaseError, db2)
    | some uv =>
      (.ok (formatValidationRequest db2 uv),
       notifyRequester db2 f uv (((findProj db2 uv.project_id).map (·.name)).getD "")
         u.name false now)

/-- PUT /api/validations/:id/reject. -/
def rejectPut (db : DB) (f : Faults) (actor : Option UserRow) (reqId : String)
    (respComment : Option String) (now : Nat) : Res FormattedV × DB :=
  match actor with
  | none => (.err .unauthorized, db)
  | some u =>
    match rejectCheck db f u reqId with
    | .fail e => (.err e, db)
    | .go fv => rejectCommit db f u fv respComment now

/-- One engine operation against the store.  The freshness side condition
of `submit` models cuid2's collision-free id generation. -/
inductive Step : DB → DB → Prop where
  | submit (db : DB) (f : Faults) (actor : Option UserRow) (body : CreateBody)
      (newId : String) (now : Nat)
      (hfresh : ∀ v ∈ db.validations, v.id ≠ newId) :
      Step db (submitPost db f actor body newId now).2
  | approve (db : DB) (f : Faults) (actor : Option UserRow) (reqId : String)
      (rc : Option String) (now : Nat) :
      Step db (approvePut db f actor reqId rc now).2
  | reject (db : DB) (f : Faults) (actor : Option UserRow) (reqId : String)
      (rc : Option String) (now : Nat) :
      Step db (rejectPut db f actor reqId rc now).2

/-- Stores reachable from one with no validation_requests rows, via any
sequence of engine operations. -/
def Reachable (db : DB) : Prop :=
  ∃ db0 : DB, db0.validations = [] ∧ Relation.ReflTransGen Step db0 db

/-- The per-row invariant of the spec data model: approver_id and
responded_at are set exactly when the status is no longer PENDING. -/
def RowInv (r : VRow) : Prop :=
  (r.approver_id ≠ none ↔ r.status ≠ .pending)
  ∧ (r.responded_at ≠ none ↔ r.status ≠ .pending)

/-- Every validation row of the store satisfies RowInv. -/
def StoreInv (db : DB) : Prop := ∀ r ∈ db.validations, RowInv r

/-- The status of the (first) row with a given id, `none` when absent. -/
def statusOf (db : DB) (i : String) : Option VStatus := (findV db i).map (·.status)

def approverOf (db : DB) (i : String) : Option (Option String) :=
  (findV db i).map (·.approver_id)

def respondedOf (db : DB) (i : String) : Option (Option Nat) :=
  (findV db i).map (·.responded_at)

/-- What a single engine operation may do to each request id: create it
PENDING with null approver_id / responded_at, move it from PENDING to
APPROVED or REJECTED, or leave it alone — a decided row is frozen. -/
def TransOK (db db' : DB) : Prop :=
  ∀ i : String,
    (statusOf db i = none →
      statusOf db' i = none ∨
        (statusOf db' i = some .pending ∧ approverOf db' i = some none
          ∧ respondedOf db' i = some none))
    ∧ (statusOf db i = some .pending →
        statusOf db' i = some .pending ∨ statusOf db' i = some .approved
          ∨ statusOf db' i = some .rejected)
    ∧ (∀ s : VStatus, s ≠ .pending → statusOf db i = some s →
        statusOf db' i = some s ∧ approverOf db' i = approverOf db i
          ∧ respondedOf db' i = respondedOf db i)

lemma findV_id {db : DB} {i : String} {r : VRow} (h : findV db i = some r) :
    r ∈ db.validations ∧ r.id = i := by
  unfold findV at h
  exact ⟨List.mem_of_find?_eq_some h, by simpa using List.find?_some h⟩

lemma find?_map_id {g : VRow → VRow} (hg : ∀ r, (g r).id = r.id) (i : String)
    (l : List VRow) :
    (l.map g).find? (fun r => r.id = i) = (l.find? (fun r => r.id = i)).map g := by
  induction l with
  | nil => rfl
  | cons x xs ih =>
    by_cases hx : x.id = i
    · simp [List.find?_cons, hg, hx]
    · simp [List.find?_cons, hg, hx, ih]

lemma findV_updV (db : DB) (j : String) (g : VRow → VRow) (hg : ∀ r, (g r).id = r.id)
    (i : String) :
    findV (updV db j g) i = (findV db i).map (fun r => if r.id = j then g r else r) := by
  unfold findV updV
  exact find?_map_id (fun r => by by_cases h : r.id = j <;> simp [h, hg]) i db.validations

lemma find?_append_v (l₁ l₂ : List VRow) (p : VRow → Bool) :
    (l₁ ++ l₂).find? p = ((l₁.find? p).orElse (fun _ => l₂.find? p)) := by
  induction l₁ with
  | nil => rfl
  | cons x xs ih =>
    by_cases hx : p x
    · simp [List.find?_cons, hx]
    · simp [List.find?_cons, hx, ih]

lemma updProj_validations (db : DB) (i : String) (g : ProjectRow → ProjectRow) :
    (updProj db i g).validations = db.validations := rfl

lemma updV_projects (db : DB) (i : String) (g : VRow → VRow) :
    (updV db i g).projects = db.projects := rfl

lemma notifyApprovers_validations (db : DB) (f : Faults) (v : VRow) (pn rn : String)
    (now : Nat) : (notifyApprovers db f v pn rn now).validations = db.validations := by
  unfold notifyApprovers
  dsimp only
  repeat' split
  all_goals rfl

lemma notifyApprovers_projects (db : DB) (f : Faults) (v : VRow) (pn rn : String)
    (now : Nat) : (notifyApprovers db f v pn rn now).projects = db.projects := by
  unfold notifyApprovers
  dsimp only
  repeat' split
  all_goals rfl

lemma notifyRequester_validations (db : DB) (f : Faults) (v : VRow) (pn an : String)
    (ap : Bool) (now : Nat) :
    (notifyRequester db f v pn an ap now).validations = db.validations := by
  unfold notifyRequester
  split <;> rfl

lemma notifyRequester_projects (db : DB) (f : Faults) (v : VRow) (pn an : String)
    (ap : Bool) (now : Nat) :
    (notifyRequester db f v pn an ap now).projects = db.projects := by
  unfold notifyRequester
  split <;> rfl

lemma applyApproveEffect_validations {db db1 : DB} {f : Faults} {fv : FetchedV} {now : Nat}
    (h : applyApproveEffect db f fv now = some db1) : db1.validations = db.validations := by
  unfold applyApproveEffect at h
  repeat' split at h
  all_goals (cases h; try rfl)

lemma statusOf_eq_of {db db' : DB} (h : db'.validations = db.validations) (i : String) :
    statusOf db' i = statusOf db i := by unfold statusOf findV; rw [h]

lemma approverOf_eq_of {db db' : DB} (h : db'.validations = db.validations) (i : String) :
    approverOf db' i = approverOf db i := by unfold approverOf findV; rw [h]

lemma respondedOf_eq_of {db db' : DB} (h : db'.validations = db.validations) (i : String) :
    respondedOf db' i = respondedOf db i := by unfold respondedOf findV; rw [h]

lemma transOK_of_validations_eq {db db' : DB} (h : db'.validations = db.validations) :
    TransOK db db' := by
  intro i
  rw [statusOf_eq_of h, approverOf_eq_of h, respondedOf_eq_of h]
  exact ⟨fun h' => Or.inl h', fun h' => Or.inl h', fun _ _ h' => ⟨h', rfl, rfl⟩⟩

lemma transOK_decide {db db' : DB} {reqId : String} {v : VRow} (st : VStatus)
    (uid : String) (rc : Option String) (now : Nat)
    (hfind : findV db reqId = some v) (hpend : v.status = .pending)
    (hdb : db'.validations =
      db.validations.map (fun r => if r.id = reqId then decideUpd st uid rc now r else r)) :
    TransOK db db' := by
  have key : ∀ i, findV db' i =
      (findV db i).map (fun r => if r.id = reqId then decideUpd st uid rc now r else r) := by
    intro i
    unfold findV
    rw [hdb]
    exact find?_map_id (fun r => by by_cases h : r.id = reqId <;> simp [h, decideUpd]) i
      db.validations
  intro i
  refine ⟨?_, ?_, ?_⟩
  · intro h0
    left
    have hf : findV db i = none := by
      unfold statusOf at h0
      cases hfd : findV db i with
      | none => rfl
      | some r => rw [hfd] at h0; cases h0
    unfold statusOf
    rw [key i, hf]
    rfl
  · intro hp
    cases hfd : findV db i with
    | none => unfold statusOf at hp; rw [hfd] at hp; cases hp
    | some r =>
      have hr : r.status = .pending := by
        unfold statusOf at hp; rw [hfd] at hp; simpa using hp
      by_cases hri : r.id = reqId
      · have hst' : statusOf db' i = some st := by
          unfold statusOf; rw [key i, hfd]; simp [hri, decideUpd]
        cases st
        · exact Or.inl hst'
        · exact Or.inr (Or.inl hst')
        · exact Or.inr (Or.inr hst')
      · have : statusOf db' i = some r.status := by
          unfold statusOf; rw [key i, hfd]; simp [hri]
        rw [hr] at this
        exact Or.inl this
  · intro s hs hstat
    cases hfd : findV db i with
    | none => unfold statusOf at hstat; rw [hfd] at hstat; cases hstat
    | some r =>
      have hr : r.status = s := by
        unfold statusOf at hstat; rw [hfd] at hstat; simpa using hstat
      have hri : ¬ (r.id = reqId) := by
        intro hq
        have hid := (findV_id hfd).2
        have hiq : i = reqId := by rw [← hid, hq]
        rw [hiq, hfind] at hfd
        injection hfd with hvr
        rw [← hvr, hpend] at hr
        exact hs hr.symm
      unfold statusOf approverOf respondedOf
      rw [key i, hfd]
      simp [hri, hr]

lemma transOK_submit {db db' : DB} {newRow : VRow}
    (hst : newRow.status = .pending) (hap : newRow.approver_id = none)
    (hrs : newRow.responded_at = none)
    (hdb : db'.validations = db.validations ++ [newRow]) :
    TransOK db db' := by
  have key : ∀ i, findV db' i =
      ((findV db i).orElse (fun _ => if newRow.id = i then some newRow else none)) := by
    intro i
    unfold findV
    rw [hdb, find?_append_v]
    congr 1
    funext _
    by_cases h : newRow.id = i <;> simp [List.find?_cons, h]
  intro i
  refine ⟨?_, ?_, ?_⟩
  · intro h0
    have hf : findV db i = none := by
      unfold statusOf at h0
      cases hfd : findV db i with
      | none => rfl
      | some r => rw [hfd] at h0; cases h0
    by_cases hni : newRow.id = i
    · right
      unfold statusOf approverOf respondedOf
      rw [key i, hf]
      simp [Option.orElse, hni, hst, hap, hrs]
    · left
      unfold statusOf
      rw [key i, hf]
      simp [Option.orElse, hni]
  · intro hp
    cases hfd : findV db i with
    | none => unfold statusOf at hp; rw [hfd] at hp; cases hp
    | some r =>
      left
      unfold statusOf at hp ⊢
      rw [key i, hfd]
      rw [hfd] at hp
      simpa [Option.orElse] using hp
  · intro s hs hstat
    cases hfd : findV db i with
    | none => unfold statusOf at hstat; rw [hfd] at hstat; cases hstat
    | some r =>
      unfold statusOf at hstat
      unfold statusOf approverOf respondedOf
      rw [key i, hfd]
      rw [hfd] at hstat
      have hr : r.status = s := by simpa using hstat
      simp [Option.orElse, hr]

lemma rowInv_decideUpd {st : VStatus} (hst : st ≠ .pending) (uid : String)
    (rc : Option String) (now : Nat) (r : VRow) :
    RowInv (decideUpd st uid rc now r) := by
  constructor <;> simp [decideUpd, hst]

lemma storeInv_decide {db db' : DB} {reqId uid : String} {rc : Option String}
    {now : Nat} (st : VStatus)
    (h : StoreInv db) (hst : st ≠ .pending)
    (hdb : db'.validations =
      db.validations.map (fun r => if r.id = reqId then decideUpd st uid rc now r else r)) :
    StoreInv db' := by
  intro r hr
  rw [hdb] at hr
  rcases List.mem_map.1 hr with ⟨x, hx, rfl⟩
  by_cases hxi : x.id = reqId
  · rw [if_pos hxi]
    exact rowInv_decideUpd hst uid rc now x
  · rw [if_neg hxi]
    exact h x hx

lemma storeInv_submit {db db' : DB} {newRow : VRow}
    (h : StoreInv db) (hnew : RowInv newRow)
    (hdb : db'.validations = db.validations ++ [newRow]) : StoreInv db' := by
  intro r hr
  rw [hdb] at hr
  rcases List.mem_append.1 hr with hr | hr
  · exact h r hr
  · rw [List.mem_singleton.1 hr]
    exact hnew

lemma approveCheck_go {db : DB} {f : Faults} {u : UserRow} {reqId : String} {fv : FetchedV}
    (h : approveCheck db f u reqId = .go fv) :
    findV db reqId = some fv.row ∧ fv.row.status = .pending := by
  unfold approveCheck at h
  repeat' split at h
  all_goals cases h
  all_goals simp_all

lemma rejectCheck_go {db : DB} {f : Faults} {u : UserRow} {reqId : String} {fv : FetchedV}
    (h : rejectCheck db f u reqId = .go fv) :
    findV db reqId = some fv.row ∧ fv.row.status = .pending := by
  unfold rejectCheck at h
  repeat' split at h
  all_goals cases h
  all_goals simp_all

lemma approveCommit_validations {db : DB} {f : Faults} {u : UserRow} {fv : FetchedV}
    {rc : Option String} {now : Nat} :
    ((approveCommit db f u fv rc now).2).validations = db.validations ∨
      ((approveCommit db f u fv rc now).2).validations =
        db.validations.map (fun r => if r.id = fv.row.id then decideUpd .approved u.id rc now r else r) := by
  unfold approveCommit
  cases heff : applyApproveEffect db f fv now with
  | none => exact Or.inl rfl
  | some db1 =>
    have h1 : db1.validations = db.validations := applyApproveEffect_validations heff
    cases hu : f.vUpdate with
    | true => exact Or.inl h1
    | false =>
      simp only [Bool.false_eq_true, if_false]
      cases hfd : findV (updV db1 fv.row.id (decideUpd .approved u.id rc now)) fv.row.id with
      | none =>
        right
        simp only [updV]
        rw [h1]
      | some uv =>
        right
        rw [notifyRequester_validations]
        simp only [updV]
        rw [h1]

lemma rejectCommit_validations {db : DB} {f : Faults} {u : UserRow} {fv : FetchedV}
    {rc : Option String} {now : Nat} :
    ((rejectCommit db f u fv rc now).2).validations = db.validations ∨
      ((rejectCommit db f u fv rc now).2).validations =
        db.validations.map (fun r => if r.id = fv.row.id then decideUpd .rejected u.id rc now r else r) := by
  unfold rejectCommit
  cases hu : f.vUpdate with
  | true => exact Or.inl rfl
  | false =>
    simp only [Bool.false_eq_true, if_false]
    cases hfd : findV (updV db fv.row.id (decideUpd .rejected u.id rc now)) fv.row.id with
    | none =>
      right
      simp only [updV]
    | some uv =>
      right
      rw [notifyRequester_validations]
      simp only [updV]

lemma submitPost_validations (db : DB) (f : Faults) (actor : Option UserRow)
    (body : CreateBody) (newId : String) (now : Nat) :
    ((submitPost db f actor body newId now).2).validations = db.validations ∨
    ∃ newRow : VRow, newRow.status = .pending ∧ newRow.approver_id = none ∧
      newRow.responded_at = none ∧
      ((submitPost db f actor body newId now).2).validations = db.validations ++ [newRow] := by
  unfold submitPost
  cases actor with
  | none => exact Or.inl rfl
  | some u =>
    cases hpf : f.projFetch with
    | true => exact Or.inl rfl
    | false =>
      simp only [Bool.false_eq_true, if_false]
      cases hfp : findProj db body.projectId with
      | none => exact Or.inl rfl
      | some project =>
        dsimp only
        by_cases hdept : u.role = Role.adminDepartment ∧ u.department_id ≠ some project.department_id
        · rw [if_pos hdept]
          exact Or.inl rfl
        · rw [if_neg hdept]
          cases hvi : f.vInsert with
          | true => exact Or.inl rfl
          | false =>
            simp only [Bool.false_eq_true, if_false]
            right
            refine ⟨_, ?_, ?_, ?_, by rw [notifyApprovers_validations]⟩ <;> rfl

lemma storeInv_of_validations_eq {db db' : DB} (h : db'.validations = db.validations)
    (hi : StoreInv db) : StoreInv db' := by
  intro r hr
  rw [h] at hr
  exact hi r hr

lemma step_transOK {db db' : DB} (h : Step db db') : TransOK db db' := by
  cases h with
  | submit f actor body newId now hfresh =>
    rcases submitPost_validations db f actor body newId now with h1 | ⟨nr, hst, hap, hrs, h1⟩
    · exact transOK_of_validations_eq h1
    · exact transOK_submit hst hap hrs h1
  | approve f actor reqId rc now =>
    cases actor with
    | none => exact transOK_of_validations_eq rfl
    | some u =>
      cases hc : approveCheck db f u reqId with
      | fail e =>
        have heq : (approvePut db f (some u) reqId rc now).2 = db := by
          unfold approvePut; dsimp only; rw [hc]
        exact transOK_of_validations_eq (by rw [heq])
      | go fv =>
        have hput : (approvePut db f (some u) reqId rc now).2 =
            (approveCommit db f u fv rc now).2 := by
          unfold approvePut; dsimp only; rw [hc]
        obtain ⟨hfind, hpend⟩ := approveCheck_go hc
        rcases @approveCommit_validations db f u fv rc now with h1 | h1
        · exact transOK_of_validations_eq (by rw [hput]; exact h1)
        · have hid : fv.row.id = reqId := (findV_id hfind).2
          refine transOK_decide VStatus.approved u.id rc now hfind hpend ?_
          rw [hput, h1, hid]
  | reject f actor reqId rc now =>
    cases actor with
    | none => exact transOK_of_validations_eq rfl
    | some u =>
      cases hc : rejectCheck db f u reqId with
      | fail e =>
        have heq : (rejectPut db f (some u) reqId rc now).2 = db := by
          unfold rejectPut; dsimp only; rw [hc]
        exact transOK_of_validations_eq (by rw [heq])
      | go fv =>
        have hput : (rejectPut db f (some u) reqId rc now).2 =
            (rejectCommit db f u fv rc now).2 := by
          unfold rejectPut; dsimp only; rw [hc]
        obtain ⟨hfind, hpend⟩ := rejectCheck_go hc
        rcases @rejectCommit_validations db f u fv rc now with h1 | h1
        · exact transOK_of_validations_eq (by rw [hput]; exact h1)
        · have hid : fv.row.id = reqId := (findV_id hfind).2
          refine transOK_decide VStatus.rejected u.id rc now hfind hpend ?_
          rw [hput, h1, hid]

lemma step_storeInv {db db' : DB} (h : Step db db') (hi : StoreInv db) : StoreInv db' := by
  cases h with
  | submit f actor body newId now hfresh =>
    rcases submitPost_validations db f actor body newId now with h1 | ⟨nr, hst, hap, hrs, h1⟩
    · exact storeInv_of_validations_eq h1 hi
    · refine storeInv_submit hi ?_ h1
      constructor
      · rw [hap, hst]; simp
      · rw [hrs, hst]; simp
  | approve f actor reqId rc now =>
    cases actor with
    | none => exact storeInv_of_validations_eq rfl hi
    | some u =>
      cases hc : approveCheck db f u reqId with
      | fail e =>
        have heq : (approvePut db f (some u) reqId rc now).2 = db := by
          unfold approvePut; dsimp only; rw [hc]
        exact storeInv_of_validations_eq (by rw [heq]) hi
      | go fv =>
        have hput : (approvePut db f (some u) reqId rc now).2 =
            (approveCommit db f u fv rc now).2 := by
          unfold approvePut; dsimp only; rw [hc]
        rcases @approveCommit_validations db f u fv rc now with h1 | h1
        · exact storeInv_of_validations_eq (by rw [hput]; exact h1) hi
        · exact storeInv_decide VStatus.approved hi (by simp) (by rw [hput]; exact h1)
  | reject f actor reqId rc now =>
    cases actor with
    | none => exact storeInv_of_validations_eq rfl hi
    | some u =>
      cases hc : rejectCheck db f u reqId with
      | fail e =>
        have heq : (rejectPut db f (some u) reqId rc now).2 = db := by
          unfold rejectPut; dsimp only; rw [hc]
        exact storeInv_of_validations_eq (by rw [heq]) hi
      | go fv =>
        have hput : (rejectPut db f (some u) reqId rc now).2 =
            (rejectCommit db f u fv rc now).2 := by
          unfold rejectPut; dsimp only; rw [hc]
        rcases @rejectCommit_validations db f u fv rc now with h1 | h1
        · exact storeInv_of_validations_eq (by rw [hput]; exact h1) hi
        · exact storeInv_decide VStatus.rejected hi (by simp) (by rw [hput]; exact h1)

lemma reachable_storeInv {db : DB} (h : Reachable db) : StoreInv db := by
  rcases h with ⟨db0, h0, hsteps⟩
  induction hsteps with
  | refl =>
    intro r hr
    rw [h0] at hr
    cases hr
  | tail hab hbc ih => exact step_storeInv hbc ih

lemma mem_insDesc (a r : VRow) (l : List VRow) : a ∈ insDesc r l ↔ a = r ∨ a ∈ l := by
  induction l with
  | nil => simp [insDesc]
  | cons x xs ih =>
    unfold insDesc
    by_cases h : x.created_at ≤ r.created_at
    · rw [if_pos h]
      simp [List.mem_cons]
    · rw [if_neg h]
      simp only [List.mem_cons, ih]
      tauto

lemma mem_sortDesc (a : VRow) (l : List VRow) : a ∈ sortDesc l ↔ a ∈ l := by
  induction l with
  | nil => simp [sortDesc]
  | cons x xs ih =>
    unfold sortDesc
    rw [mem_insDesc]
    simp [ih, List.mem_cons]

lemma pairwise_insDesc {l : List VRow} (r : VRow)
    (h : l.Pairwise (fun a b => b.created_at ≤ a.created_at)) :
    (insDesc r l).Pairwise (fun a b => b.created_at ≤ a.created_at) := by
  induction l with
  | nil => simp [insDesc]
  | cons x xs ih =>
    unfold insDesc
    rcases List.pairwise_cons.1 h with ⟨hx, hxs⟩
    by_cases hle : x.created_at ≤ r.created_at
    · rw [if_pos hle]
      refine List.pairwise_cons.2 ⟨?_, h⟩
      intro b hb
      rcases List.mem_cons.1 hb with rfl | hb
      · exact hle
      · exact le_trans (hx b hb) hle
    · rw [if_neg hle]
      refine List.pairwise_cons.2 ⟨?_, ih hxs⟩
      intro b hb
      rcases (mem_insDesc b r xs).1 hb with rfl | hb
      · exact le_of_not_le hle
      · exact hx b hb

lemma pairwise_sortDesc (l : List VRow) :
    (sortDesc l).Pairwise (fun a b => b.created_at ≤ a.created_at) := by
  induction l with
  | nil => simp [sortDesc]
  | cons x xs ih => exact pairwise_insDesc x ih

/-- Metadata a row created through Submit can carry: SQL NULL or a string
produced by JSON.stringify, which JSON.parse always accepts. -/
def MetaOK : MetaCol → Prop
  | .invalid _ => False
  | _ => True

/-- The guard of the type-dispatched side effect, exactly as the approve
handler evaluates it on the fetched snapshot. -/
def effectCondF (fv : FetchedV) : Prop :=
  match fv.row.vtype with
  | .projectApproval => (fv.proj.map (·.status)) = some (.jstr "PENDING_VALIDATION")
  | .budgetIncrease => ∃ o, fv.row.metadata = .valid o ∧ (jGet o "newBudget").isSome
  | .statusChange => ∃ o p, fv.row.metadata = .valid o ∧ jGet o "newStatus" = some p ∧ truthy p
  | .unblockRequest => (fv.proj.map (·.status)) = some (.jstr "BLOCKED")

lemma findV_eq_of {db db' : DB} (h : db'.validations = db.validations) (i : String) :
    findV db' i = findV db i := by unfold findV; rw [h]

lemma applyApproveEffect_some (db : DB) (f : Faults) {fv : FetchedV} (now : Nat)
    (hm : MetaOK fv.row.metadata) :
    ∃ db1, applyApproveEffect db f fv now = some db1 ∧ db1.validations = db.validations := by
  unfold applyApproveEffect
  repeat' split
  all_goals first
    | exact ⟨_, rfl, by split <;> rfl⟩
    | exact ⟨_, rfl, rfl⟩
    | simp_all [MetaOK]

lemma applyApproveEffect_eq_or_cond {db db1 : DB} {f : Faults} {fv : FetchedV} {now : Nat}
    (h : applyApproveEffect db f fv now = some db1) :
    db1 = db ∨ effectCondF fv := by
  unfold applyApproveEffect at h
  unfold effectCondF
  repeat' split at h
  all_goals cases h
  all_goals try exact Or.inl rfl
  all_goals right
  all_goals simp_all [jGet, Option.isSome]
  all_goals (first
    | (rename_i hq hpu; obtain ⟨a, ha⟩ := hq; simp [ha])
    | (rename_i hq ht hpu; exact ⟨_, hq, ht⟩))

lemma applyApproveEffect_skip {db : DB} {f : Faults} {fv : FetchedV} {now : Nat}
    (hm : MetaOK fv.row.metadata) (hnc : ¬ effectCondF fv) :
    applyApproveEffect db f fv now = some db := by
  obtain ⟨db1, he, hv⟩ := applyApproveEffect_some db f now hm
  rcases applyApproveEffect_eq_or_cond he with rfl | hc
  · exact he
  · exact absurd hc hnc

lemma approveCheck_eq_go {db : DB} {f : Faults} {u : UserRow} {reqId : String} {v : VRow}
    (hrole : u.role ∈ APPROVER_ROLES) (hf : f.vFetch = false)
    (hfind : findV db reqId = some v) (hpend : v.status = .pending) :
    approveCheck db f u reqId = .go { row := v, proj := findProj db v.project_id } := by
  unfold approveCheck
  rw [if_pos hrole, hf]
  simp only [Bool.false_eq_true, if_false]
  rw [hfind]
  dsimp only
  rw [if_neg (show ¬(v.status ≠ VStatus.pending) from fun h => h hpend)]

lemma approveCheck_already {db : DB} {f : Faults} {u : UserRow} {reqId : String} {v : VRow}
    (hrole : u.role ∈ APPROVER_ROLES) (hf : f.vFetch = false)
    (hfind : findV db reqId = some v) (hst : v.status ≠ .pending) :
    approveCheck db f u reqId = .fail .alreadyProcessed := by
  unfold approveCheck
  rw [if_pos hrole, hf]
  simp only [Bool.false_eq_true, if_false]
  rw [hfind]
  dsimp only
  rw [if_pos hst]

lemma rejectCheck_eq_go {db : DB} {f : Faults} {u : UserRow} {reqId : String} {v : VRow}
    (hrole : u.role ∈ APPROVER_ROLES) (hf : f.vFetch = false)
    (hfind : findV db reqId = some v) (hpend : v.status = .pending) :
    rejectCheck db f u reqId = .go { row := v, proj := none } := by
  unfold rejectCheck
  rw [if_pos hrole, hf]
  simp only [Bool.false_eq_true, if_false]
  rw [hfind]
  dsimp only
  rw [if_neg (show ¬(v.status ≠ VStatus.pending) from fun h => h hpend)]

lemma rejectCheck_already {db : DB} {f : Faults} {u : UserRow} {reqId : String} {v : VRow}
    (hrole : u.role ∈ APPROVER_ROLES) (hf : f.vFetch = false)
    (hfind : findV db reqId = some v) (hst : v.status ≠ .pending) :
    rejectCheck db f u reqId = .fail .alreadyProcessed := by
  unfold rejectCheck
  rw [if_pos hrole, hf]
  simp only [Bool.false_eq_true, if_false]
  rw [hfind]
  dsimp only
  rw [if_pos hst]

lemma findV_after_decide {db : DB} {reqId : String} {v : VRow} (st : VStatus)
    (uid : String) (rc : Option String) (now : Nat)
    (hfind : findV db reqId = some v) :
    findV (updV db reqId (decideUpd st uid rc now)) reqId =
      some (decideUpd st uid rc now v) := by
  rw [findV_updV db reqId (decideUpd st uid rc now) (fun r => rfl) reqId, hfind]
  simp [(findV_id hfind).2]

lemma approveCommit_ok {db : DB} {u : UserRow} {fv : FetchedV} {rc : Option String}
    {now : Nat} {w : VRow} (f : Faults) (hvu : f.vUpdate = false)
    (hm : MetaOK fv.row.metadata)
    (hfind : findV db fv.row.id = some w) :
    (∃ fm, (approveCommit db f u fv rc now).1 = .ok fm) ∧
    (approveCommit db f u fv rc now).2.validations =
      db.validations.map
        (fun r => if r.id = fv.row.id then decideUpd .approved u.id rc now r else r) := by
  obtain ⟨db1, he, hv⟩ := applyApproveEffect_some db f now hm
  unfold approveCommit
  rw [he, hvu]
  simp only [Bool.false_eq_true, if_false]
  have hfind1 : findV db1 fv.row.id = some w := by rw [findV_eq_of hv]; exact hfind
  have hfind2 := findV_after_decide VStatus.approved u.id rc now hfind1
  rw [hfind2]
  refine ⟨⟨_, rfl⟩, ?_⟩
  rw [notifyRequester_validations]
  simp only [updV]
  rw [hv]

lemma rejectCommit_ok {db : DB} {u : UserRow} {fv : FetchedV} {rc : Option String}
    {now : Nat} {w : VRow} (f : Faults) (hvu : f.vUpdate = false)
    (hfind : findV db fv.row.id = some w) :
    (∃ fm, (rejectCommit db f u fv rc now).1 = .ok fm) ∧
    (rejectCommit db f u fv rc now).2.validations =
      db.validations.map
        (fun r => if r.id = fv.row.id then decideUpd .rejected u.id rc now r else r) := by
  unfold rejectCommit
  rw [hvu]
  simp only [Bool.false_eq_true, if_false]
  have hfind2 := findV_after_decide VStatus.rejected u.id rc now hfind
  rw [hfind2]
  refine ⟨⟨_, rfl⟩, ?_⟩
  rw [notifyRequester_validations]
  simp only [updV]

lemma statusOf_after {db db' : DB} {reqId : String} {v : VRow} (st : VStatus)
    (uid : String) (rc : Option String) (now : Nat)
    (hfind : findV db reqId = some v)
    (hdb : db'.validations =
      db.validations.map (fun r => if r.id = reqId then decideUpd st uid rc now r else r)) :
    statusOf db' reqId = some st ∧ approverOf db' reqId = some (some uid) := by
  have key : findV db' reqId = some (decideUpd st uid rc now v) := by
    have := findV_after_decide st uid rc now hfind
    unfold findV at this ⊢
    rw [hdb]
    rw [show (updV db reqId (decideUpd st uid rc now)).validations =
      db.validations.map (fun r => if r.id = reqId then decideUpd st uid rc now r else r)
      from rfl] at this
    exact this
  unfold statusOf approverOf
  rw [key]
  simp [decideUpd]

lemma approveCommit_projects {db db1 : DB} {f : Faults} {u : UserRow} {fv : FetchedV}
    {rc : Option String} {now : Nat}
    (he : applyApproveEffect db f fv now = some db1) :
    (approveCommit db f u fv rc now).2.projects = db1.projects := by
  unfold approveCommit
  rw [he]
  cases hvu : f.vUpdate with
  | true => rfl
  | false =>
    simp only [Bool.false_eq_true, if_false]
    cases hfd : findV (updV db1 fv.row.id (decideUpd .approved u.id rc now)) fv.row.id with
    | none => simp [updV]
    | some uv =>
      rw [notifyRequester_projects]
      simp [updV]

lemma rejectPut_projects (db : DB) (f : Faults) (actor : Option UserRow) (reqId : String)
    (rc : Option String) (now : Nat) :
    (rejectPut db f actor reqId rc now).2.projects = db.projects := by
  unfold rejectPut
  cases actor with
  | none => rfl
  | some u =>
    dsimp only
    cases hc : rejectCheck db f u reqId with
    | fail e => rfl
    | go fv =>
      unfold rejectCommit
      cases hvu : f.vUpdate with
      | true => rfl
      | false =>
        simp only [Bool.false_eq_true, if_false]
        cases hfd : findV (updV db fv.row.id (decideUpd .rejected u.id rc now)) fv.row.id with
        | none => simp [updV]
        | some uv =>
          rw [notifyRequester_projects]
          simp [updV]

lemma approvePut_go {db : DB} {f : Faults} {u : UserRow} {reqId : String} {fv : FetchedV}
    (rc : Option String) (now : Nat) (hc : approveCheck db f u reqId = .go fv) :
    approvePut db f (some u) reqId rc now = approveCommit db f u fv rc now := by
  unfold approvePut
  dsimp only
  rw [hc]

lemma approvePut_fail {db : DB} {f : Faults} {u : UserRow} {reqId : String} {e : ErrCode}
    (rc : Option String) (now : Nat) (hc : approveCheck db f u reqId = .fail e) :
    approvePut db f (some u) reqId rc now = (.err e, db) := by
  unfold approvePut
  dsimp only
  rw [hc]

lemma rejectPut_go {db : DB} {f : Faults} {u : UserRow} {reqId : String} {fv : FetchedV}
    (rc : Option String) (now : Nat) (hc : rejectCheck db f u reqId = .go fv) :
    rejectPut db f (some u) reqId rc now = rejectCommit db f u fv rc now := by
  unfold rejectPut
  dsimp only
  rw [hc]

lemma rejectPut_fail {db : DB} {f : Faults} {u : UserRow} {reqId : String} {e : ErrCode}
    (rc : Option String) (now : Nat) (hc : rejectCheck db f u reqId = .fail e) :
    rejectPut db f (some u) reqId rc now = (.err e, db) := by
  unfold rejectPut
  dsimp only
  rw [hc]

lemma applyApproveEffect_budget {db : DB} {f : Faults} {fv : FetchedV} {now : Nat}
    {o : JObj} {p : JPrim}
    (ht : fv.row.vtype = .budgetIncrease) (hm : fv.row.metadata = .valid o)
    (hg : jGet o "newBudget" = some p) (hpu : f.projUpdate = false) :
    applyApproveEffect db f fv now =
      some (updProj db fv.row.project_id (fun pr => { pr with budget := p, updated_at := now })) := by
  unfold applyApproveEffect
  repeat' split
  all_goals simp_all

lemma applyApproveEffect_status {db : DB} {f : Faults} {fv : FetchedV} {now : Nat}
    {o : JObj} {p : JPrim}
    (ht : fv.row.vtype = .statusChange) (hm : fv.row.metadata = .valid o)
    (hg : jGet o "newStatus" = some p) (htr : truthy p) (hpu : f.projUpdate = false) :
    applyApproveEffect db f fv now =
      some (updProj db fv.row.project_id (fun pr => { pr with status := p, updated_at := now })) := by
  unfold applyApproveEffect
  repeat' split
  all_goals simp_all

lemma approveCommit_vUpdate_fail {db db1 : DB} {f : Faults} {u : UserRow} {fv : FetchedV}
    {rc : Option String} {now : Nat}
    (he : applyApproveEffect db f fv now = some db1) (hvu : f.vUpdate = true) :
    approveCommit db f u fv rc now = (.err .databaseError, db1) := by
  unfold approveCommit
  rw [he, hvu]
  simp

/-- Concrete department used by the witness scenarios. -/
def cDept : DeptRow := { id := "d1", name := "Travaux", code := "TRV" }

/-- Project p1, still awaiting validation. -/
def cProjPV : ProjectRow :=
  { id := "p1", name := "Route", status := .jstr "PENDING_VALIDATION",
    budget := .jnum 100, department_id := "d1", updated_at := 0 }

/-- Project p2, already in progress. -/
def cProjIP : ProjectRow :=
  { id := "p2", name := "Pont", status := .jstr "IN_PROGRESS",
    budget := .jnum 200, department_id := "d1", updated_at := 0 }

def cMin : UserRow :=
  { id := "A", name := "Min", email := "min@x", role := .minister,
    is_active := true, department_id := none }

def cPres : UserRow :=
  { id := "B", name := "Pres", email := "pres@x", role := .presidency,
    is_active := true, department_id := none }

def cAdm : UserRow :=
  { id := "R", name := "Adm", email := "adm@x", role := .adminDepartment,
    is_active := true, department_id := some "d1" }

def cAgt : UserRow :=
  { id := "G", name := "Agt", email := "agt@x", role := .agent,
    is_active := true, department_id := none }

/-- Pending BUDGET_INCREASE on p1 asking for budget 50000000. -/
def cRowBudget : VRow :=
  { id := "r1", vtype := .budgetIncrease, status := .pending, project_id := "p1",
    requester_id := "R", approver_id := none, comment := "c", response_comment := none,
    metadata := .valid [("newBudget", .jnum 50000000)], created_at := 1, updated_at := 1,
    responded_at := none }

/-- An already-approved request. -/
def cRowDone : VRow :=
  { cRowBudget with id := "r2", status := .approved, approver_id := some "A",
                    responded_at := some 2, created_at := 2, updated_at := 2 }

/-- Pending STATUS_CHANGE on p2 whose metadata carries newStatus = "". -/
def cRowStatusEmpty : VRow :=
  { cRowBudget with id := "r3", vtype := .statusChange, project_id := "p2",
                    metadata := .valid [("newStatus", .jstr "")], created_at := 3,
                    updated_at := 3 }

/-- Pending STATUS_CHANGE on p2 with newStatus = "SUSPENDED". -/
def cRowStatus : VRow :=
  { cRowBudget with id := "r4", vtype := .statusChange, project_id := "p2",
                    metadata := .valid [("newStatus", .jstr "SUSPENDED")], created_at := 4,
                    updated_at := 4 }

/-- Pending PROJECT_APPROVAL on p2, stale: p2 has already left
PENDING_VALIDATION. -/
def cRowStale : VRow :=
  { cRowBudget with id := "r5", vtype := .projectApproval, project_id := "p2",
                    metadata := .null, created_at := 5, updated_at := 5 }

/-- Pending BUDGET_INCREASE whose stored metadata is not valid JSON. -/
def cRowBadMeta : VRow :=
  { cRowBudget with id := "r6", metadata := .invalid "not json", created_at := 6,
                    updated_at := 6 }

def cDB : DB :=
  { validations := [cRowBudget, cRowDone, cRowStatusEmpty, cRowStatus, cRowStale, cRowBadMeta],
    projects := [cProjPV, cProjIP],
    departments := [cDept],
    users := [cMin, cPres, cAdm, cAgt],
    notifications := [] }

/-- The store with no validation_requests rows, from which reachability
starts. -/
def dbInit : DB :=
  { validations := [], projects := [], departments := [], users := [], notifications := [] }

/-- C1: every ValidationRequest is created only through Submit, with status
PENDING and a null approverId; across every engine operation a request's
status either stays put or moves PENDING → APPROVED / PENDING → REJECTED,
a decided request is frozen (so the transition happens at most once), and
on every reachable store approverId and respondedAt are set exactly when
status ≠ PENDING. -/
theorem C1_request_lifecycle (db : DB) (h : Reachable db) :
    StoreInv db ∧ ∀ db', Step db db' → TransOK db db' :=
  ⟨reachable_storeInv h, fun _ hs => step_transOK hs⟩

/-- Witness for C1 at the empty initial store. -/
theorem C1_request_lifecycle_witness :
    StoreInv dbInit ∧ TransOK dbInit (approvePut dbInit noFaults none "r" none 0).2 := by
  have h := C1_request_lifecycle dbInit ⟨dbInit, rfl, Relation.ReflTransGen.refl⟩
  exact ⟨h.1, h.2 _ (Step.approve dbInit noFaults none "r" none 0)⟩

/-- C2: deciding (approve or reject) a request whose status is not PENDING
returns ALREADY_PROCESSED and leaves the entire store untouched — no
project or request write happens. -/
theorem C2_already_processed_no_write (db : DB) (f : Faults) (u : UserRow)
    (reqId : String) (rc : Option String) (now : Nat) (v : VRow)
    (hrole : u.role ∈ APPROVER_ROLES) (hf : f.vFetch = false)
    (hfind : findV db reqId = some v) (hst : v.status ≠ .pending) :
    approvePut db f (some u) reqId rc now = (.err .alreadyProcessed, db) ∧
    rejectPut db f (some u) reqId rc now = (.err .alreadyProcessed, db) :=
  ⟨approvePut_fail rc now (approveCheck_already hrole hf hfind hst),
   rejectPut_fail rc now (rejectCheck_already hrole hf hfind hst)⟩

/-- Witness for C2 on the already-approved row r2. -/
theorem C2_already_processed_no_write_witness :
    (cMin.role ∈ APPROVER_ROLES ∧ noFaults.vFetch = false ∧
      findV cDB "r2" = some cRowDone ∧ cRowDone.status ≠ .pending) ∧
    approvePut cDB noFaults (some cMin) "r2" none 9 = (.err .alreadyProcessed, cDB) ∧
    rejectPut cDB noFaults (some cMin) "r2" none 9 = (.err .alreadyProcessed, cDB) := by
  have h := C2_already_processed_no_write cDB noFaults cMin "r2" none 9 cRowDone
    (by decide) rfl (by decide) (by decide)
  exact ⟨⟨by decide, rfl, by decide, by decide⟩, h.1, h.2⟩

/-- The snapshot both concurrent approvers fetch for r1. -/
def cFetched : FetchedV := { row := cRowBudget, proj := some cProjPV }

/-- C3 counterexample: the decision write is guarded by the id alone, so
when two Decide calls both run their read/guard phase before either write
phase, both observe PENDING and both succeed — neither receives
ALREADY_PROCESSED, and the second silently overwrites the first decision
(the stored approver ends up "B").  This refutes the claim that the
transition write is conditioned on the prior status so that at most one of
two concurrent Decide calls can succeed. -/
theorem C3_cas_counterexample :
    approveCheck cDB noFaults cMin "r1" = .go cFetched ∧
    approveCheck cDB noFaults cPres "r1" = .go cFetched ∧
    (∃ fm, (approveCommit cDB noFaults cMin cFetched none 7).1 = .ok fm) ∧
    (∃ fm, (approveCommit (approveCommit cDB noFaults cMin cFetched none 7).2
        noFaults cPres cFetched none 8).1 = .ok fm) ∧
    approverOf (approveCommit (approveCommit cDB noFaults cMin cFetched none 7).2
        noFaults cPres cFetched none 8).2 "r1" = some (some "B") :=
  ⟨by decide, by decide, ⟨_, rfl⟩, ⟨_, rfl⟩, by decide⟩

/-- C3 amended: the transition write issued by Decide is conditioned on the
request id only, not on the prior status; the ALREADY_PROCESSED guard is a
separate earlier read.  Whenever two approve calls both pass the guard
phase against the same store snapshot, both write phases succeed, the
request ends APPROVED, and the second write silently overwrites the first
decision's approver.  (A Decide whose read runs after another decision's
write does receive ALREADY_PROCESSED — that sequential case is C2.) -/
theorem C3_decide_write_not_cas (db : DB) (u1 u2 : UserRow) (reqId : String)
    (fv : FetchedV) (rc1 rc2 : Option String) (t1 t2 : Nat)
    (hm : MetaOK fv.row.metadata)
    (h1 : approveCheck db noFaults u1 reqId = .go fv)
    (h2 : approveCheck db noFaults u2 reqId = .go fv) :
    (∃ fm, (approveCommit db noFaults u1 fv rc1 t1).1 = .ok fm) ∧
    (∃ fm, (approveCommit (approveCommit db noFaults u1 fv rc1 t1).2
        noFaults u2 fv rc2 t2).1 = .ok fm) ∧
    approverOf (approveCommit (approveCommit db noFaults u1 fv rc1 t1).2
        noFaults u2 fv rc2 t2).2 reqId = some (some u2.id) ∧
    statusOf (approveCommit (approveCommit db noFaults u1 fv rc1 t1).2
        noFaults u2 fv rc2 t2).2 reqId = some .approved := by
  obtain ⟨hfind, hpend⟩ := approveCheck_go h1
  have hid : fv.row.id = reqId := (findV_id hfind).2
  have hfind' : findV db fv.row.id = some fv.row := by rw [hid]; exact hfind
  obtain ⟨hok1, hval1⟩ := approveCommit_ok noFaults rfl hm hfind'
  have hfind1 : findV (approveCommit db noFaults u1 fv rc1 t1).2 fv.row.id =
      some (decideUpd VStatus.approved u1.id rc1 t1 fv.row) := by
    have hup := findV_after_decide VStatus.approved u1.id rc1 t1 hfind'
    unfold findV at hup ⊢
    rw [hval1]
    exact hup
  obtain ⟨hok2, hval2⟩ := approveCommit_ok noFaults rfl hm hfind1
  have hfind1' : findV (approveCommit db noFaults u1 fv rc1 t1).2 reqId =
      some (decideUpd VStatus.approved u1.id rc1 t1 fv.row) := by
    rw [← hid]; exact hfind1
  rw [hid] at hval2
  obtain ⟨hs, ha⟩ := statusOf_after VStatus.approved u2.id rc2 t2 hfind1' hval2
  exact ⟨hok1, hok2, ha, hs⟩

/-- Witness for the amended C3 on the concrete double-approve scenario. -/
theorem C3_decide_write_not_cas_witness :
    (∃ fm, (approveCommit cDB noFaults cMin cFetched none 7).1 = .ok fm) ∧
    (∃ fm, (approveCommit (approveCommit cDB noFaults cMin cFetched none 7).2
        noFaults cPres cFetched none 8).1 = .ok fm) ∧
    approverOf (approveCommit (approveCommit cDB noFaults cMin cFetched none 7).2
        noFaults cPres cFetched none 8).2 "r1" = some (some cPres.id) ∧
    statusOf (approveCommit (approveCommit cDB noFaults cMin cFetched none 7).2
        noFaults cPres cFetched none 8).2 "r1" = some .approved :=
  C3_decide_write_not_cas cDB cMin cPres "r1" cFetched none none 7 8
    trivial (by decide) (by decide)

/-- C4: approving a PENDING request whose type-specific side-effect
condition does not hold (stale request) succeeds anyway: the Project table
is left untouched and the request is still marked APPROVED.  (The request's
stored metadata is NULL or parseable, as every Submit-created row is.) -/
theorem C4_stale_condition_skips_effect (db : DB) (u : UserRow) (reqId : String)
    (rc : Option String) (now : Nat) (v : VRow)
    (hrole : u.role ∈ APPROVER_ROLES)
    (hfind : findV db reqId = some v) (hpend : v.status = .pending)
    (hm : MetaOK v.metadata)
    (hnc : ¬ effectCondF { row := v, proj := findProj db v.project_id }) :
    (∃ fm, (approvePut db noFaults (some u) reqId rc now).1 = .ok fm) ∧
    (approvePut db noFaults (some u) reqId rc now).2.projects = db.projects ∧
    statusOf (approvePut db noFaults (some u) reqId rc now).2 reqId = some .approved := by
  have hid : v.id = reqId := (findV_id hfind).2
  have hfind' : findV db v.id = some v := by rw [hid]; exact hfind
  have hc : approveCheck db noFaults u reqId =
      .go { row := v, proj := findProj db v.project_id } :=
    approveCheck_eq_go hrole rfl hfind hpend
  have hput := approvePut_go rc now hc
  have he : applyApproveEffect db noFaults { row := v, proj := findProj db v.project_id } now
      = some db := applyApproveEffect_skip hm hnc
  obtain ⟨hok, hval⟩ :=
    @approveCommit_ok db u { row := v, proj := findProj db v.project_id } rc now v
      noFaults rfl hm hfind'
  dsimp only at hval
  rw [hid] at hval
  obtain ⟨hs, ha⟩ := statusOf_after VStatus.approved u.id rc now hfind hval
  refine ⟨?_, ?_, ?_⟩
  · rw [hput]; exact hok
  · rw [hput]; exact approveCommit_projects he
  · rw [hput]; exact hs

/-- Witness for C4: approving the stale PROJECT_APPROVAL r5 (its project p2
has already left PENDING_VALIDATION). -/
theorem C4_stale_condition_skips_effect_witness :
    (cMin.role ∈ APPROVER_ROLES ∧ findV cDB "r5" = some cRowStale ∧
      cRowStale.status = .pending) ∧
    (∃ fm, (approvePut cDB noFaults (some cMin) "r5" none 9).1 = .ok fm) ∧
    (approvePut cDB noFaults (some cMin) "r5" none 9).2.projects = cDB.projects ∧
    statusOf (approvePut cDB noFaults (some cMin) "r5" none 9).2 "r5" = some .approved := by
  have hnc : ¬ effectCondF { row := cRowStale, proj := findProj cDB cRowStale.project_id } := by
    intro h
    have h' : ((findProj cDB cRowStale.project_id).map (fun p => p.status))
        = some (JPrim.jstr "PENDING_VALIDATION") := h
    exact absurd h' (by decide)
  have h := C4_stale_condition_skips_effect cDB cMin "r5" none 9 cRowStale
    (by decide) (by decide) (by decide) trivial hnc
  exact ⟨⟨by decide, by decide, by decide⟩, h.1, h.2.1, h.2.2⟩

/-- C5 counterexample: the STATUS_CHANGE request r3 carries
metadata.newStatus = "" — the key is present — yet approving it leaves the
project status at "IN_PROGRESS" instead of setting it to "": the handler
guards the write with JavaScript truthiness (`if (metadata.newStatus)`),
not presence, so the claim as stated is false at this input. -/
theorem C5_newstatus_counterexample :
    jGet [("newStatus", .jstr "")] "newStatus" = some (.jstr "") ∧
    cRowStatusEmpty.metadata = .valid [("newStatus", .jstr "")] ∧
    (∃ fm, (approvePut cDB noFaults (some cMin) "r3" none 9).1 = .ok fm) ∧
    (findProj (approvePut cDB noFaults (some cMin) "r3" none 9).2 "p2").map (fun p => p.status)
      = some (.jstr "IN_PROGRESS") ∧
    some (JPrim.jstr "IN_PROGRESS") ≠ some (JPrim.jstr "") :=
  ⟨by decide, by decide, ⟨_, rfl⟩, by decide, by decide⟩

/-- C5 amended: approving a BUDGET_INCREASE whose metadata contains
newBudget (any present value) writes exactly that value into
project.budget; approving a STATUS_CHANGE whose metadata carries a TRUTHY
newStatus (e.g. a nonempty string — a falsy value such as "" is skipped)
writes exactly that value into project.status; rejecting a request of any
type never mutates the projects table. -/
theorem C5_effect_values (db : DB) :
    (∀ (u : UserRow) (reqId : String) (rc : Option String) (now : Nat) (v : VRow)
        (o : JObj) (p : JPrim),
      u.role ∈ APPROVER_ROLES → findV db reqId = some v → v.status = .pending →
      v.vtype = .budgetIncrease → v.metadata = .valid o → jGet o "newBudget" = some p →
      (∃ fm, (approvePut db noFaults (some u) reqId rc now).1 = .ok fm) ∧
      (approvePut db noFaults (some u) reqId rc now).2.projects =
        (updProj db v.project_id (fun pr => { pr with budget := p, updated_at := now })).projects ∧
      statusOf (approvePut db noFaults (some u) reqId rc now).2 reqId = some .approved) ∧
    (∀ (u : UserRow) (reqId : String) (rc : Option String) (now : Nat) (v : VRow)
        (o : JObj) (p : JPrim),
      u.role ∈ APPROVER_ROLES → findV db reqId = some v → v.status = .pending →
      v.vtype = .statusChange → v.metadata = .valid o → jGet o "newStatus" = some p →
      truthy p →
      (∃ fm, (approvePut db noFaults (some u) reqId rc now).1 = .ok fm) ∧
      (approvePut db noFaults (some u) reqId rc now).2.projects =
        (updProj db v.project_id (fun pr => { pr with status := p, updated_at := now })).projects ∧
      statusOf (approvePut db noFaults (some u) reqId rc now).2 reqId = some .approved) ∧
    (∀ (f : Faults) (actor : Option UserRow) (reqId : String) (rc : Option String) (now : Nat),
      (rejectPut db f actor reqId rc now).2.projects = db.projects) := by
  refine ⟨?_, ?_, fun f actor reqId rc now => rejectPut_projects db f actor reqId rc now⟩
  · intro u reqId rc now v o p hrole hfind hpend ht hmv hg
    have hid : v.id = reqId := (findV_id hfind).2
    have hfind' : findV db v.id = some v := by rw [hid]; exact hfind
    have hm : MetaOK v.metadata := by rw [hmv]; trivial
    have hc : approveCheck db noFaults u reqId =
        .go { row := v, proj := findProj db v.project_id } :=
      approveCheck_eq_go hrole rfl hfind hpend
    have hput := approvePut_go rc now hc
    have he : applyApproveEffect db noFaults { row := v, proj := findProj db v.project_id } now
        = some (updProj db v.project_id (fun pr => { pr with budget := p, updated_at := now })) :=
      applyApproveEffect_budget ht hmv hg rfl
    obtain ⟨hok, hval⟩ :=
      @approveCommit_ok db u { row := v, proj := findProj db v.project_id } rc now v
        noFaults rfl hm hfind'
    dsimp only at hval
    rw [hid] at hval
    obtain ⟨hs, ha⟩ := statusOf_after VStatus.approved u.id rc now hfind hval
    refine ⟨by rw [hput]; exact hok, by rw [hput]; exact approveCommit_projects he,
      by rw [hput]; exact hs⟩
  · intro u reqId rc now v o p hrole hfind hpend ht hmv hg htr
    have hid : v.id = reqId := (findV_id hfind).2
    have hfind' : findV db v.id = some v := by rw [hid]; exact hfind
    have hm : MetaOK v.metadata := by rw [hmv]; trivial
    have hc : approveCheck db noFaults u reqId =
        .go { row := v, proj := findProj db v.project_id } :=
      approveCheck_eq_go hrole rfl hfind hpend
    have hput := approvePut_go rc now hc
    have he : applyApproveEffect db noFaults { row := v, proj := findProj db v.project_id } now
        = some (updProj db v.project_id (fun pr => { pr with status := p, updated_at := now })) :=
      applyApproveEffect_status ht hmv hg htr rfl
    obtain ⟨hok, hval⟩ :=
      @approveCommit_ok db u { row := v, proj := findProj db v.project_id } rc now v
        noFaults rfl hm hfind'
    dsimp only at hval
    rw [hid] at hval
    obtain ⟨hs, ha⟩ := statusOf_after VStatus.approved u.id rc now hfind hval
    refine ⟨by rw [hput]; exact hok, by rw [hput]; exact approveCommit_projects he,
      by rw [hput]; exact hs⟩

/-- Witness for the amended C5: approving r1 writes budget 50000000 into
p1; approving r4 writes status "SUSPENDED" into p2; rejecting r1 leaves
the projects table unchanged. -/
theorem C5_effect_values_witness :
    ((∃ fm, (approvePut cDB noFaults (some cMin) "r1" none 9).1 = .ok fm) ∧
      (approvePut cDB noFaults (some cMin) "r1" none 9).2.projects =
        (updProj cDB "p1" (fun pr => { pr with budget := .jnum 50000000, updated_at := 9 })).projects ∧
      statusOf (approvePut cDB noFaults (some cMin) "r1" none 9).2 "r1" = some .approved) ∧
    ((∃ fm, (approvePut cDB noFaults (some cMin) "r4" none 9).1 = .ok fm) ∧
      (approvePut cDB noFaults (some cMin) "r4" none 9).2.projects =
        (updProj cDB "p2" (fun pr => { pr with status := .jstr "SUSPENDED", updated_at := 9 })).projects ∧
      statusOf (approvePut cDB noFaults (some cMin) "r4" none 9).2 "r4" = some .approved) ∧
    (rejectPut cDB noFaults (some cMin) "r1" none 9).2.projects = cDB.projects := by
  have h := C5_effect_values cDB
  exact ⟨h.1 cMin "r1" none 9 cRowBudget [("newBudget", .jnum 50000000)] (.jnum 50000000)
      (by decide) (by decide) (by decide) (by decide) (by decide) (by decide),
    h.2.1 cMin "r4" none 9 cRowStatus [("newStatus", .jstr "SUSPENDED")] (.jstr "SUSPENDED")
      (by decide) (by decide) (by decide) (by decide) (by decide) (by decide) (by decide),
    h.2.2 noFaults (some cMin) "r1" none 9⟩

lemma applyApproveEffect_fault {db : DB} {f : Faults} {fv : FetchedV} {now : Nat}
    (hm : MetaOK fv.row.metadata) (hf : f.projUpdate = true) :
    applyApproveEffect db f fv now = some db := by
  unfold applyApproveEffect
  repeat' split
  all_goals simp_all [MetaOK]

/-- Failure outcomes injected for the C6 scenario: the request-row update
fails while everything else succeeds. -/
def fVUp : Faults := { noFaults with vUpdate := true }

/-- C6 counterexample: approving the BUDGET_INCREASE r1 when the
request-row update fails yields DatabaseError with p1's budget already set
to 50000000 while r1 is still PENDING — an outcome in which the Project is
mutated but the request is not marked APPROVED, refuting the claimed
atomicity of the two writes. -/
theorem C6_atomicity_counterexample :
    (approvePut cDB fVUp (some cMin) "r1" none 9).1 = .err .databaseError ∧
    (findProj (approvePut cDB fVUp (some cMin) "r1" none 9).2 "p1").map (fun p => p.budget)
      = some (.jnum 50000000) ∧
    statusOf (approvePut cDB fVUp (some cMin) "r1" none 9).2 "r1" = some .pending :=
  ⟨by decide, by decide, by decide⟩

/-- C6 amended: the Project side effect and the request update are two
separate, independent writes, side effect first.  If the request update
fails, the handler reports DatabaseError while the Project mutation is
already committed and the request is still PENDING; if instead the Project
write fails, the failure is logged and swallowed and the request is still
marked APPROVED with the projects table untouched. -/
theorem C6_two_writes_not_atomic (db : DB) :
    (∀ (f : Faults) (u : UserRow) (reqId : String) (rc : Option String) (now : Nat)
        (v : VRow) (o : JObj) (p : JPrim),
      u.role ∈ APPROVER_ROLES → f.vFetch = false → f.projUpdate = false → f.vUpdate = true →
      findV db reqId = some v → v.status = .pending → v.vtype = .budgetIncrease →
      v.metadata = .valid o → jGet o "newBudget" = some p →
      approvePut db f (some u) reqId rc now =
        (.err .databaseError,
         updProj db v.project_id (fun pr => { pr with budget := p, updated_at := now })) ∧
      statusOf (approvePut db f (some u) reqId rc now).2 reqId = some .pending) ∧
    (∀ (f : Faults) (u : UserRow) (reqId : String) (rc : Option String) (now : Nat)
        (v : VRow),
      u.role ∈ APPROVER_ROLES → f.vFetch = false → f.projUpdate = true → f.vUpdate = false →
      findV db reqId = some v → v.status = .pending → MetaOK v.metadata →
      (∃ fm, (approvePut db f (some u) reqId rc now).1 = .ok fm) ∧
      (approvePut db f (some u) reqId rc now).2.projects = db.projects ∧
      statusOf (approvePut db f (some u) reqId rc now).2 reqId = some .approved) := by
  constructor
  · intro f u reqId rc now v o p hrole hvf hpu hvu hfind hpend ht hmv hg
    have hc : approveCheck db f u reqId =
        .go { row := v, proj := findProj db v.project_id } :=
      approveCheck_eq_go hrole hvf hfind hpend
    have hput := approvePut_go rc now hc
    have he : applyApproveEffect db f { row := v, proj := findProj db v.project_id } now
        = some (updProj db v.project_id (fun pr => { pr with budget := p, updated_at := now })) :=
      applyApproveEffect_budget ht hmv hg hpu
    have hcom :=
      @approveCommit_vUpdate_fail db _ f u { row := v, proj := findProj db v.project_id }
        rc now he hvu
    constructor
    · rw [hput, hcom]
    · rw [hput, hcom]
      have hval : (updProj db v.project_id
          (fun pr => { pr with budget := p, updated_at := now })).validations
          = db.validations := rfl
      rw [statusOf_eq_of hval]
      unfold statusOf
      rw [hfind]
      simp [hpend]
  · intro f u reqId rc now v hrole hvf hpu hvu hfind hpend hm
    have hid : v.id = reqId := (findV_id hfind).2
    have hfind' : findV db v.id = some v := by rw [hid]; exact hfind
    have hc : approveCheck db f u reqId =
        .go { row := v, proj := findProj db v.project_id } :=
      approveCheck_eq_go hrole hvf hfind hpend
    have hput := approvePut_go rc now hc
    have he : applyApproveEffect db f { row := v, proj := findProj db v.project_id } now
        = some db := applyApproveEffect_fault hm hpu
    obtain ⟨hok, hval⟩ :=
      @approveCommit_ok db u { row := v, proj := findProj db v.project_id } rc now v
        f hvu hm hfind'
    dsimp only at hval
    rw [hid] at hval
    obtain ⟨hs, ha⟩ := statusOf_after VStatus.approved u.id rc now hfind hval
    exact ⟨by rw [hput]; exact hok, by rw [hput]; exact approveCommit_projects he,
      by rw [hput]; exact hs⟩

/-- Failure outcomes for the second half of C6: the project write fails. -/
def fPUp : Faults := { noFaults with projUpdate := true }

/-- Witness for the amended C6 on r1. -/
theorem C6_two_writes_not_atomic_witness :
    (approvePut cDB fVUp (some cMin) "r1" none 9 =
      (.err .databaseError,
       updProj cDB "p1" (fun pr => { pr with budget := .jnum 50000000, updated_at := 9 })) ∧
     statusOf (approvePut cDB fVUp (some cMin) "r1" none 9).2 "r1" = some .pending) ∧
    ((∃ fm, (approvePut cDB fPUp (some cMin) "r1" none 9).1 = .ok fm) ∧
     (approvePut cDB fPUp (some cMin) "r1" none 9).2.projects = cDB.projects ∧
     statusOf (approvePut cDB fPUp (some cMin) "r1" none 9).2 "r1" = some .approved) := by
  have h := C6_two_writes_not_atomic cDB
  exact ⟨h.1 fVUp cMin "r1" none 9 cRowBudget [("newBudget", .jnum 50000000)] (.jnum 50000000)
      (by decide) rfl rfl rfl (by decide) (by decide) (by decide) (by decide) (by decide),
    h.2 fPUp cMin "r1" none 9 cRowBudget
      (by decide) rfl rfl rfl (by decide) (by decide) trivial⟩

/-- C7 counterexample: an authenticated AGENT calling Pending receives a
Forbidden error, not an empty list: the handler returns 403 for every role
outside APPROVER_ROLES, refuting "returns an empty list and never an
error". -/
theorem C7_pending_counterexample :
    cAgt.role ∉ APPROVER_ROLES ∧
    pendingGet cDB noFaults (some cAgt) = .err .forbidden ∧
    pendingGet cDB noFaults (some cAgt) ≠ .ok [] :=
  ⟨by decide, by decide, by decide⟩

/-- C7 amended: an authenticated actor whose role is not in APPROVER_ROLES
receives a Forbidden error from Pending (never an empty list); an actor in
APPROVER_ROLES receives exactly the requests with status PENDING, ordered
newest-first by creation time. -/
theorem C7_pending_visibility :
    (∀ (db : DB) (f : Faults) (u : UserRow), u.role ∉ APPROVER_ROLES →
      pendingGet db f (some u) = .err .forbidden) ∧
    (∀ (db : DB) (f : Faults) (u : UserRow), u.role ∈ APPROVER_ROLES → f.vQuery = false →
      ∃ l : List VRow,
        pendingGet db f (some u) = .ok (l.map (formatValidationRequest db)) ∧
        (∀ r : VRow, r ∈ l ↔ r ∈ db.validations ∧ r.status = .pending) ∧
        l.Pairwise (fun a b => b.created_at ≤ a.created_at)) := by
  constructor
  · intro db f u h
    unfold pendingGet
    dsimp only
    rw [if_neg h]
  · intro db f u h hq
    unfold pendingGet
    dsimp only
    rw [if_pos h, hq]
    simp only [Bool.false_eq_true, if_false]
    refine ⟨sortDesc (db.validations.filter (fun r => r.status = .pending)), rfl, ?_,
      pairwise_sortDesc _⟩
    intro r
    rw [mem_sortDesc]
    simp [List.mem_filter]

/-- Witness for the amended C7: the agent is refused; the minister sees
exactly the pending rows newest-first. -/
theorem C7_pending_visibility_witness :
    pendingGet cDB noFaults (some cAgt) = .err .forbidden ∧
    ∃ l : List VRow,
      pendingGet cDB noFaults (some cMin) = .ok (l.map (formatValidationRequest cDB)) ∧
      (∀ r : VRow, r ∈ l ↔ r ∈ cDB.validations ∧ r.status = .pending) ∧
      l.Pairwise (fun a b => b.created_at ≤ a.created_at) :=
  ⟨C7_pending_visibility.1 cDB noFaults cAgt (by decide),
   C7_pending_visibility.2 cDB noFaults cMin (by decide) rfl⟩

/-- C8 counterexample: the ADMIN_DEPARTMENT actor R owns requests, yet
listing with requesterId = "A" (someone else's id) returns the empty list —
not the same result as listing without the filter, refuting "the same
result as without that filter". -/
theorem C8_counterexample :
    cAdm.role = .adminDepartment ∧
    listGet cDB noFaults (some cAdm)
      { status := none, vtype := none, projectId := none, requesterId := some "A" } = .ok [] ∧
    listGet cDB noFaults (some cAdm)
      { status := none, vtype := none, projectId := none, requesterId := none } ≠ .ok [] ∧
    listGet cDB noFaults (some cAdm)
        { status := none, vtype := none, projectId := none, requesterId := some "A" } ≠
      listGet cDB noFaults (some cAdm)
        { status := none, vtype := none, projectId := none, requesterId := none } :=
  ⟨by decide, by decide, by decide, by decide⟩

/-- C8 amended: for an ADMIN_DEPARTMENT actor the supplied requesterId
filter is conjoined with the forced requester_id = actor.id, so every row
List returns belongs to the actor; supplying someone else's id therefore
yields the empty list, not the actor's own requests. -/
theorem C8_admin_department_scoping :
    (∀ (db : DB) (f : Faults) (u : UserRow) (fs : VFilters) (l : List FormattedV),
      u.role = .adminDepartment → listGet db f (some u) fs = .ok l →
      ∀ fm ∈ l, fm.requesterId = u.id) ∧
    (∀ (db : DB) (f : Faults) (u : UserRow) (fs : VFilters) (other : String),
      u.role = .adminDepartment → f.vQuery = false → other ≠ u.id →
      listGet db f (some u)
        { status := fs.status, vtype := fs.vtype, projectId := fs.projectId,
          requesterId := some other } = .ok []) := by
  constructor
  · intro db f u fs l hrole hok fm hfm
    unfold listGet at hok
    dsimp only at hok
    cases hq : f.vQuery with
    | true => rw [hq] at hok; simp at hok
    | false =>
      rw [hq] at hok
      simp only [Bool.false_eq_true, if_false, Res.ok.injEq] at hok
      rw [← hok] at hfm
      rcases List.mem_map.1 hfm with ⟨r, hr, rfl⟩
      rw [mem_sortDesc] at hr
      have hpred := (List.mem_filter.1 hr).2
      simp only [listPred, hrole, if_true, Bool.and_eq_true, decide_eq_true_eq] at hpred
      exact hpred.2
  · intro db f u fs other hrole hq hother
    unfold listGet
    dsimp only
    rw [hq]
    simp only [Bool.false_eq_true, if_false]
    have hnil : db.validations.filter
        (listPred ⟨fs.status, fs.vtype, fs.projectId, some other⟩ u) = [] := by
      rw [List.filter_eq_nil_iff]
      intro a ha hpa
      simp only [listPred, hrole, if_true, Bool.and_eq_true, decide_eq_true_eq] at hpa
      exact hother (hpa.1.2.symm.trans hpa.2)
    rw [hnil]
    rfl

/-- Witness for the amended C8 at the concrete store. -/
theorem C8_admin_department_scoping_witness :
    (∀ fm ∈ ([] : List FormattedV), fm.requesterId = cAdm.id) ∧
    listGet cDB noFaults (some cAdm)
      { status := none, vtype := none, projectId := none, requesterId := some "A" } = .ok [] := by
  constructor
  · exact C8_admin_department_scoping.1 cDB noFaults cAdm
      { status := none, vtype := none, projectId := none, requesterId := some "A" } []
      (by decide) (by decide)
  · exact C8_admin_department_scoping.2 cDB noFaults cAdm
      { status := none, vtype := none, projectId := none, requesterId := none } "A"
      (by decide) rfl (by decide)

/-- The same fault record with every notification failure cleared. -/
def stripNotif (f : Faults) : Faults :=
  { f with approversFetch := false, notifInsert := false, requesterNotif := false }

/-- C9: notification fan-out failures (fetching approvers, inserting the
approver notifications, or inserting the requester notification) change
neither the caller-visible result of Submit / Approve / Reject nor the
validation_requests and projects tables: the committed request creation or
transition is never rolled back by a notification failure. -/
theorem C9_notify_failures_swallowed :
    (∀ (db : DB) (f : Faults) (actor : Option UserRow) (body : CreateBody)
        (newId : String) (now : Nat),
      (submitPost db f actor body newId now).1 =
        (submitPost db (stripNotif f) actor body newId now).1 ∧
      (submitPost db f actor body newId now).2.validations =
        (submitPost db (stripNotif f) actor body newId now).2.validations ∧
      (submitPost db f actor body newId now).2.projects =
        (submitPost db (stripNotif f) actor body newId now).2.projects) ∧
    (∀ (db : DB) (f : Faults) (actor : Option UserRow) (reqId : String)
        (rc : Option String) (now : Nat),
      (approvePut db f actor reqId rc now).1 =
        (approvePut db (stripNotif f) actor reqId rc now).1 ∧
      (approvePut db f actor reqId rc now).2.validations =
        (approvePut db (stripNotif f) actor reqId rc now).2.validations ∧
      (approvePut db f actor reqId rc now).2.projects =
        (approvePut db (stripNotif f) actor reqId rc now).2.projects) ∧
    (∀ (db : DB) (f : Faults) (actor : Option UserRow) (reqId : String)
        (rc : Option String) (now : Nat),
      (rejectPut db f actor reqId rc now).1 =
        (rejectPut db (stripNotif f) actor reqId rc now).1 ∧
      (rejectPut db f actor reqId rc now).2.validations =
        (rejectPut db (stripNotif f) actor reqId rc now).2.validations ∧
      (rejectPut db f actor reqId rc now).2.projects =
        (rejectPut db (stripNotif f) actor reqId rc now).2.projects) := by
  refine ⟨?_, ?_, ?_⟩
  · intro db f actor body newId now
    unfold submitPost
    cases actor with
    | none => exact ⟨rfl, rfl, rfl⟩
    | some u =>
      dsimp only
      rw [show (stripNotif f).projFetch = f.projFetch from rfl,
          show (stripNotif f).vInsert = f.vInsert from rfl]
      cases hpf : f.projFetch with
      | true => exact ⟨rfl, rfl, rfl⟩
      | false =>
        simp only [Bool.false_eq_true, if_false]
        cases hfp : findProj db body.projectId with
        | none => exact ⟨rfl, rfl, rfl⟩
        | some project =>
          dsimp only
          by_cases hdept : u.role = Role.adminDepartment ∧
              u.department_id ≠ some project.department_id
          · rw [if_pos hdept, if_pos hdept]
            exact ⟨rfl, rfl, rfl⟩
          · rw [if_neg hdept, if_neg hdept]
            cases hvi : f.vInsert with
            | true => exact ⟨rfl, rfl, rfl⟩
            | false =>
              simp only [Bool.false_eq_true, if_false]
              refine ⟨by trivial, ?_, ?_⟩
              · rw [notifyApprovers_validations, notifyApprovers_validations]
              · rw [notifyApprovers_projects, notifyApprovers_projects]
  · intro db f actor reqId rc now
    unfold approvePut
    cases actor with
    | none => exact ⟨rfl, rfl, rfl⟩
    | some u =>
      dsimp only
      rw [show approveCheck db (stripNotif f) u reqId = approveCheck db f u reqId from rfl]
      cases hc : approveCheck db f u reqId with
      | fail e => exact ⟨rfl, rfl, rfl⟩
      | go fv =>
        dsimp only
        unfold approveCommit
        rw [show applyApproveEffect db (stripNotif f) fv now =
            applyApproveEffect db f fv now from rfl,
          show (stripNotif f).vUpdate = f.vUpdate from rfl]
        cases he : applyApproveEffect db f fv now with
        | none => exact ⟨rfl, rfl, rfl⟩
        | some db1 =>
          dsimp only
          cases hvu : f.vUpdate with
          | true => exact ⟨rfl, rfl, rfl⟩
          | false =>
            simp only [Bool.false_eq_true, if_false]
            cases hfd : findV (updV db1 fv.row.id (decideUpd .approved u.id rc now))
                fv.row.id with
            | none => exact ⟨rfl, rfl, rfl⟩
            | some uv =>
              dsimp only
              refine ⟨by trivial, ?_, ?_⟩
              · rw [notifyRequester_validations, notifyRequester_validations]
              · rw [notifyRequester_projects, notifyRequester_projects]
  · intro db f actor reqId rc now
    unfold rejectPut
    cases actor with
    | none => exact ⟨rfl, rfl, rfl⟩
    | some u =>
      dsimp only
      rw [show rejectCheck db (stripNotif f) u reqId = rejectCheck db f u reqId from rfl]
      cases hc : rejectCheck db f u reqId with
      | fail e => exact ⟨rfl, rfl, rfl⟩
      | go fv =>
        dsimp only
        unfold rejectCommit
        rw [show (stripNotif f).vUpdate = f.vUpdate from rfl]
        cases hvu : f.vUpdate with
        | true => exact ⟨rfl, rfl, rfl⟩
        | false =>
          simp only [Bool.false_eq_true, if_false]
          cases hfd : findV (updV db fv.row.id (decideUpd .rejected u.id rc now))
              fv.row.id with
          | none => exact ⟨rfl, rfl, rfl⟩
          | some uv =>
            dsimp only
            refine ⟨by trivial, ?_, ?_⟩
            · rw [notifyRequester_validations, notifyRequester_validations]
            · rw [notifyRequester_projects, notifyRequester_projects]

/-- C10: formatValidationRequest is total on the metadata column — NULL
maps to null, a parseable string to its parsed object, an unparseable
string to the raw string itself, never an exception; by contrast the
approve handler parses the same column unguarded and throws on a PENDING
BUDGET_INCREASE row with unparseable metadata. -/
theorem C10_formatter_metadata_total :
    (∀ (db : DB) (v : VRow),
      (v.metadata = .null → (formatValidationRequest db v).metadata = .mnull) ∧
      (∀ o : JObj, v.metadata = .valid o →
        (formatValidationRequest db v).metadata = .mobj o) ∧
      (∀ s : String, v.metadata = .invalid s →
        (formatValidationRequest db v).metadata = .mraw s)) ∧
    (∀ (db : DB) (u : UserRow) (reqId : String) (rc : Option String) (now : Nat)
        (v : VRow) (s : String),
      u.role ∈ APPROVER_ROLES → findV db reqId = some v → v.status = .pending →
      v.vtype = .budgetIncrease → v.metadata = .invalid s →
      (approvePut db noFaults (some u) reqId rc now).1 = .thrown) := by
  constructor
  · intro db v
    refine ⟨fun h => ?_, fun o h => ?_, fun s h => ?_⟩ <;>
      simp [formatValidationRequest, h]
  · intro db u reqId rc now v s hrole hfind hpend ht hmv
    have hc : approveCheck db noFaults u reqId =
        .go { row := v, proj := findProj db v.project_id } :=
      approveCheck_eq_go hrole rfl hfind hpend
    rw [approvePut_go rc now hc]
    unfold approveCommit
    have he : applyApproveEffect db noFaults { row := v, proj := findProj db v.project_id }
        now = none := by
      unfold applyApproveEffect
      repeat' split
      all_goals simp_all
    rw [he]

/-- Witness for C10 on the three metadata shapes present in the concrete
store, and the thrown approve on the unparseable row r6. -/
theorem C10_formatter_metadata_total_witness :
    (formatValidationRequest cDB cRowStale).metadata = .mnull ∧
    (formatValidationRequest cDB cRowBudget).metadata =
      .mobj [("newBudget", .jnum 50000000)] ∧
    (formatValidationRequest cDB cRowBadMeta).metadata = .mraw "not json" ∧
    (approvePut cDB noFaults (some cMin) "r6" none 9).1 = .thrown :=
  ⟨(C10_formatter_metadata_total.1 cDB cRowStale).1 rfl,
   (C10_formatter_metadata_total.1 cDB cRowBudget).2.1 [("newBudget", .jnum 50000000)] rfl,
   (C10_formatter_metadata_total.1 cDB cRowBadMeta).2.2 "not json" rfl,
   C10_formatter_metadata_total.2 cDB cMin "r6" none 9 cRowBadMeta "not json"
     (by decide) (by decide) (by decide) (by decide) (by decide)⟩
